import Mathlib

/-
Shallow embedding of the safe-react repository fragments:
  * src/logic/contracts/safeContracts.ts  (deployment resolution, contract getters)
  * the token selectors file (extendedSafeTokensSelector)
  * src/utils/googleTagManager.ts  (URL anonymization, trackEvent)

External libraries (`@gnosis.pm/safe-deployments` registry getters, `semver`'s
`satisfies`, the current chain configuration and the Immutable token map) are
modelled as explicit environment parameters; JavaScript truthiness on optional
strings is made explicit.  JavaScript `a || b` on deployment objects is
`Option` alternation, since deployment objects are always truthy and only
`undefined` is falsy there.
-/

namespace SafeReact

/-- Deployment descriptor from the `@gnosis.pm/safe-deployments` registry:
an ABI together with a per-network address table keyed by chain id. -/
structure Deployment where
  abi : List String
  networkAddresses : List (String × String)
deriving DecidableEq

/-- Property access `deployment.networkAddresses[chainId]`: exact-key lookup. -/
def networkAddress (d : Deployment) (chainId : String) : Option String :=
  (d.networkAddresses.find? (fun p => p.1 = chainId)).map Prod.snd

/-- Ambient environment of safeContracts.ts: the semver `satisfies` predicate,
the current chain (`_getChainId()` / `getChainById`), the registry getters from
`@gnosis.pm/safe-deployments`, and the `LATEST_SAFE_VERSION` constant.
Registry getters take the version filter and an optional network filter,
mirroring the `{ version, network? }` filter objects of the source. -/
structure SafeDeploymentsEnv where
  semverSatisfies : String → String → Bool
  chainId : String
  l2 : Bool
  getSafeSingletonDeployment : String → Option String → Option Deployment
  getSafeL2SingletonDeployment : String → Option String → Option Deployment
  getProxyFactoryDeployment : String → Option String → Option Deployment
  getSignMessageLibDeployment : Option String → Option Deployment
  LATEST_SAFE_VERSION : String

/-- Local `const getDeployment = useL2ContractVersion ? getSafeL2SingletonDeployment
: getSafeSingletonDeployment` of `getSafeContractDeployment`, where
`useL2ContractVersion = chainConfig.l2 && semverSatisfies(safeVersion, '>=1.3.0')`. -/
def getDeployment (env : SafeDeploymentsEnv) (safeVersion : String) :
    String → Option String → Option Deployment :=
  if env.l2 && env.semverSatisfies safeVersion ">=1.3.0" then
    env.getSafeL2SingletonDeployment
  else
    env.getSafeSingletonDeployment

/-- Embedding of `getSafeContractDeployment` (safeContracts.ts, lines 33-58):
`getDeployment({version, network}) || getDeployment({version}) ||
(useOldestContractVersion ? getDeployment({version: '1.0.0'}) : undefined)`. -/
def getSafeContractDeployment (env : SafeDeploymentsEnv) (safeVersion : String) :
    Option Deployment :=
  let useOldestContractVersion := env.semverSatisfies safeVersion "<1.0.0"
  match getDeployment env safeVersion safeVersion (some env.chainId) with
  | some d => some d
  | none =>
    match getDeployment env safeVersion safeVersion none with
    | some d => some d
    | none =>
      if useOldestContractVersion then getDeployment env safeVersion "1.0.0" none
      else none

/-- Claim C1: For every safeVersion string, getSafeContractDeployment resolves a
deployment by trying, in order: the registry entry for that exact version on the
current network; then the entry for that version with no network constraint;
then, only when safeVersion satisfies '<1.0.0', the entry for version '1.0.0';
and returns undefined when all of these miss. -/
theorem getSafeContractDeployment_three_tier
    (env : SafeDeploymentsEnv) (safeVersion : String) :
    (∀ d, getDeployment env safeVersion safeVersion (some env.chainId) = some d →
        getSafeContractDeployment env safeVersion = some d) ∧
    (getDeployment env safeVersion safeVersion (some env.chainId) = none →
      ∀ d, getDeployment env safeVersion safeVersion none = some d →
        getSafeContractDeployment env safeVersion = some d) ∧
    (getDeployment env safeVersion safeVersion (some env.chainId) = none →
      getDeployment env safeVersion safeVersion none = none →
      env.semverSatisfies safeVersion "<1.0.0" = true →
        getSafeContractDeployment env safeVersion
          = getDeployment env safeVersion "1.0.0" none) ∧
    (getDeployment env safeVersion safeVersion (some env.chainId) = none →
      getDeployment env safeVersion safeVersion none = none →
      env.semverSatisfies safeVersion "<1.0.0" = false →
        getSafeContractDeployment env safeVersion = none) := by
  refine ⟨?_, ?_, ?_, ?_⟩ <;> intros <;> simp_all [getSafeContractDeployment]

/-- Test deployment record. -/
def depA : Deployment := { abi := ["abiA"], networkAddresses := [("4", "0xaaa")] }

/-- Test deployment record. -/
def depB : Deployment := { abi := ["abiB"], networkAddresses := [("100", "0xbbb")] }

/-- Concrete non-L2 test environment: the L1 registry answers only the
network-constrained query for version 1.2.0 on chain 4. -/
def testEnvL1 : SafeDeploymentsEnv :=
  { semverSatisfies := fun v r =>
      (r = "<1.0.0" && v = "0.1.0") || (r = ">=1.3.0" && (v = "1.3.0" || v = "1.4.1"))
  , chainId := "4"
  , l2 := false
  , getSafeSingletonDeployment := fun v n =>
      if v = "1.2.0" && n = some "4" then some depA else none
  , getSafeL2SingletonDeployment := fun _ _ => none
  , getProxyFactoryDeployment := fun _ _ => none
  , getSignMessageLibDeployment := fun _ => none
  , LATEST_SAFE_VERSION := "1.3.0" }

/-- Witness for C1: on the concrete environment the network-constrained entry
for version 1.2.0 is returned. -/
theorem getSafeContractDeployment_three_tier_witness :
    getSafeContractDeployment testEnvL1 "1.2.0" = some depA :=
  (getSafeContractDeployment_three_tier testEnvL1 "1.2.0").1 depA (by decide)

/-- Claim C2: For every safeVersion string, getSafeContractDeployment consults
the L2 singleton deployment table if and only if the current chain's config has
l2 set and safeVersion satisfies '>=1.3.0'; in every other case it consults the
L1 singleton deployment table.  Stated as: under the condition the selected
getter is the L2 registry getter and the result is independent of the L1 table;
under its negation the selected getter is the L1 registry getter and the result
is independent of the L2 table. -/
theorem getSafeContractDeployment_l2_table_iff
    (env : SafeDeploymentsEnv) (safeVersion : String) :
    ((env.l2 && env.semverSatisfies safeVersion ">=1.3.0") = true →
      getDeployment env safeVersion = env.getSafeL2SingletonDeployment ∧
      ∀ f, getSafeContractDeployment { env with getSafeSingletonDeployment := f } safeVersion
            = getSafeContractDeployment env safeVersion) ∧
    ((env.l2 && env.semverSatisfies safeVersion ">=1.3.0") = false →
      getDeployment env safeVersion = env.getSafeSingletonDeployment ∧
      ∀ f, getSafeContractDeployment { env with getSafeL2SingletonDeployment := f } safeVersion
            = getSafeContractDeployment env safeVersion) := by
  constructor <;> intro h <;> constructor <;>
    simp [getSafeContractDeployment, getDeployment, h]

/-- Concrete L2 test environment. -/
def testEnvL2 : SafeDeploymentsEnv :=
  { testEnvL1 with
      l2 := true,
      getSafeSingletonDeployment := fun _ _ => none,
      getSafeL2SingletonDeployment := fun v n =>
        if v = "1.3.0" && n = some "4" then some depB else none }

/-- Witness for C2: on an L2 chain with version 1.3.0, replacing the L1 table
does not change the resolved deployment. -/
theorem getSafeContractDeployment_l2_table_iff_witness :
    getSafeContractDeployment
        { testEnvL2 with getSafeSingletonDeployment := fun _ _ => some depA } "1.3.0"
      = getSafeContractDeployment testEnvL2 "1.3.0" :=
  ((getSafeContractDeployment_l2_table_iff testEnvL2 "1.3.0").1 (by decide)).2
    (fun _ _ => some depA)

/-- JavaScript truthiness test for an optional string: `undefined` and the
empty string are falsy. -/
def strFalsy : Option String → Bool
  | none => true
  | some s => s.isEmpty

/-- Embedding of the `var contractAddress = ...; if (!contractAddress)
contractAddress = fallback` idiom. -/
def withFallback (contractAddress : Option String) (fallback : String) : String :=
  match contractAddress with
  | some s => if s.isEmpty then fallback else s
  | none => fallback

/-- Result of `new web3.eth.Contract(deployment?.abi, contractAddress)`:
the ABI handed over (possibly undefined) and the contract address. -/
structure Contract where
  abi : Option (List String)
  address : String
deriving DecidableEq

/-- Embedding of `getGnosisSafeContractInstance` (safeContracts.ts, lines
65-75): resolves the deployment for `LATEST_SAFE_VERSION`, reads its address
for the chain and falls back to a hardcoded literal instead of throwing. -/
def getGnosisSafeContractInstance (env : SafeDeploymentsEnv) (chainId : String) :
    Contract :=
  let safeSingletonDeployment := getSafeContractDeployment env env.LATEST_SAFE_VERSION
  let contractAddress := safeSingletonDeployment.bind (fun d => networkAddress d chainId)
  { abi := safeSingletonDeployment.map Deployment.abi
  , address := withFallback contractAddress "0x4f9b1def3a0f6747bf8c870a27d3decdf029100e" }

/-- The `getProxyFactoryDeployment({version, network}) ||
getProxyFactoryDeployment({version})` alternation of
`getProxyFactoryContractInstance`. -/
def proxyFactoryDeployment (env : SafeDeploymentsEnv) (chainId : String) :
    Option Deployment :=
  match env.getProxyFactoryDeployment env.LATEST_SAFE_VERSION (some chainId) with
  | some d => some d
  | none => env.getProxyFactoryDeployment env.LATEST_SAFE_VERSION none

/-- Embedding of `getProxyFactoryContractInstance` (safeContracts.ts, lines
82-99). -/
def getProxyFactoryContractInstance (env : SafeDeploymentsEnv) (chainId : String) :
    Contract :=
  let dep := proxyFactoryDeployment env chainId
  let contractAddress := dep.bind (fun d => networkAddress d chainId)
  { abi := dep.map Deployment.abi
  , address := withFallback contractAddress "0x4f9b1def3a0f6747bf8c870a27d3decdf029100e" }

/-- Claim C5: For every chainId, when all deployment-registry lookups miss (the
resolved deployment is undefined or has no address for that chain), the
GnosisSafe and ProxyFactory contract-instance getters do not throw but
unconditionally fall back to the literal address
'0x4f9b1def3a0f6747bf8c870a27d3decdf029100e'. -/
theorem contract_instance_fallback_address
    (env : SafeDeploymentsEnv) (chainId : String) :
    ((getSafeContractDeployment env env.LATEST_SAFE_VERSION).bind
        (fun d => networkAddress d chainId) = none →
      (getGnosisSafeContractInstance env chainId).address
        = "0x4f9b1def3a0f6747bf8c870a27d3decdf029100e") ∧
    ((proxyFactoryDeployment env chainId).bind
        (fun d => networkAddress d chainId) = none →
      (getProxyFactoryContractInstance env chainId).address
        = "0x4f9b1def3a0f6747bf8c870a27d3decdf029100e") := by
  constructor <;> intro h <;>
    simp [getGnosisSafeContractInstance, getProxyFactoryContractInstance,
      withFallback, h]

/-- Witness for C5: on the concrete environment (whose registries have no entry
for version 1.3.0 on chain 100) both getters produce the literal fallback
address. -/
theorem contract_instance_fallback_address_witness :
    (getGnosisSafeContractInstance testEnvL1 "100").address
        = "0x4f9b1def3a0f6747bf8c870a27d3decdf029100e" ∧
    (getProxyFactoryContractInstance testEnvL1 "100").address
        = "0x4f9b1def3a0f6747bf8c870a27d3decdf029100e" :=
  ⟨(contract_instance_fallback_address testEnvL1 "100").1 (by decide),
   (contract_instance_fallback_address testEnvL1 "100").2 (by decide)⟩

/-- The `getSignMessageLibDeployment({network}) || getSignMessageLibDeployment()`
alternation shared by `getSignMessageLibAddress` and
`getSignMessageLibContractInstance`. -/
def signMessageLibDeployment (env : SafeDeploymentsEnv) (chainId : String) :
    Option Deployment :=
  match env.getSignMessageLibDeployment (some chainId) with
  | some d => some d
  | none => env.getSignMessageLibDeployment none

/-- Embedding of `getSignMessageLibAddress` (safeContracts.ts, lines 153-168):
the resolved address, overridden by a hardcoded literal for chain 1666600000,
with a thrown generic error modelled as `Except.error`. -/
def getSignMessageLibAddress (env : SafeDeploymentsEnv) (chainId : String) :
    Except String String :=
  let dep := signMessageLibDeployment env chainId
  let contractAddress := dep.bind (fun d => networkAddress d chainId)
  let contractAddress :=
    if chainId = "1666600000" then some "0x1b02dA8Cb0d097eB8D57A175b88c7D8b47997506"
    else contractAddress
  if strFalsy contractAddress then
    Except.error ("SignMessageLib contract not found for chainId: " ++ chainId)
  else Except.ok (contractAddress.getD "")

/-- Embedding of `getSignMessageLibContractInstance` (safeContracts.ts, lines
176-193), which repeats the same lookup and override before constructing the
web3 contract. -/
def getSignMessageLibContractInstance (env : SafeDeploymentsEnv) (chainId : String) :
    Except String Contract :=
  let dep := signMessageLibDeployment env chainId
  let contractAddress := dep.bind (fun d => networkAddress d chainId)
  let contractAddress :=
    if chainId = "1666600000" then some "0x1b02dA8Cb0d097eB8D57A175b88c7D8b47997506"
    else contractAddress
  if strFalsy contractAddress then
    Except.error ("SignMessageLib contract not found for chainId: " ++ chainId)
  else Except.ok { abi := dep.map Deployment.abi, address := contractAddress.getD "" }

/-- Evaluation rule: `undefined` is falsy. -/
theorem strFalsy_none : strFalsy none = true := rfl

/-- Evaluation rule: a present string is falsy exactly when empty. -/
theorem strFalsy_some (s : String) : strFalsy (some s) = s.isEmpty := rfl

/-- Claim C6: For every chainId, getSignMessageLibAddress raises a generic
error exactly when no SignMessageLib contract address is resolved for that
chainId (the registry alternation yields no address for the chain and the
hardcoded override does not apply); otherwise it returns a defined (non-empty)
address string. -/
theorem getSignMessageLibAddress_error_iff
    (env : SafeDeploymentsEnv) (chainId : String) :
    ((∃ msg, getSignMessageLibAddress env chainId = Except.error msg) ↔
      (chainId ≠ "1666600000" ∧
        strFalsy ((signMessageLibDeployment env chainId).bind
          (fun d => networkAddress d chainId)) = true)) ∧
    (∀ a, getSignMessageLibAddress env chainId = Except.ok a → a.isEmpty = false) := by
  by_cases hc : chainId = "1666600000"
  · subst hc
    have hok : getSignMessageLibAddress env "1666600000"
        = Except.ok "0x1b02dA8Cb0d097eB8D57A175b88c7D8b47997506" := rfl
    rw [hok]
    refine ⟨⟨?_, ?_⟩, ?_⟩
    · rintro ⟨msg, hmsg⟩
      exact absurd hmsg (by simp)
    · rintro ⟨hne, _⟩
      exact absurd rfl hne
    · intro a ha
      simp only [Except.ok.injEq] at ha
      subst ha
      decide
  · unfold getSignMessageLibAddress
    simp only [if_neg hc]
    refine ⟨⟨?_, ?_⟩, ?_⟩
    · rintro ⟨msg, hmsg⟩
      refine ⟨hc, ?_⟩
      by_contra hff
      rw [Bool.not_eq_true] at hff
      rw [hff] at hmsg
      simp at hmsg
    · rintro ⟨_, hf⟩
      rw [hf]
      exact ⟨"SignMessageLib contract not found for chainId: " ++ chainId, by simp⟩
    · intro a ha
      cases hopt : (signMessageLibDeployment env chainId).bind
          (fun d => networkAddress d chainId) with
      | none => rw [hopt] at ha; simp [strFalsy_none] at ha
      | some s =>
        rw [hopt] at ha
        rw [strFalsy_some] at ha
        by_cases hs : s.isEmpty
        · rw [hs] at ha; simp at ha
        · rw [Bool.not_eq_true] at hs
          rw [hs] at ha
          simp only [Bool.false_eq_true, if_false, Option.getD_some,
            Except.ok.injEq] at ha
          subst ha
          exact hs

/-- Witness for C6: on the concrete environment (no SignMessageLib registry
entries) the address getter throws for chain 4. -/
theorem getSignMessageLibAddress_error_iff_witness :
    ∃ msg, getSignMessageLibAddress testEnvL1 "4" = Except.error msg :=
  (getSignMessageLibAddress_error_iff testEnvL1 "4").1.mpr ⟨by decide, by decide⟩

/-- Claim C9: For chainId '1666600000', getSignMessageLibAddress and
getSignMessageLibContractInstance always use the hardcoded address
'0x1b02dA8Cb0d097eB8D57A175b88c7D8b47997506', overriding whatever address the
deployment registry returns for that chain. -/
theorem signMessageLib_harmony_hardcoded_address (env : SafeDeploymentsEnv) :
    getSignMessageLibAddress env "1666600000"
      = Except.ok "0x1b02dA8Cb0d097eB8D57A175b88c7D8b47997506" ∧
    (getSignMessageLibContractInstance env "1666600000").map Contract.address
      = Except.ok "0x1b02dA8Cb0d097eB8D57A175b88c7D8b47997506" :=
  ⟨rfl, rfl⟩

/-- The `implementation` field of a client-gateway safe-info response. -/
structure SafeInfoImplementation where
  value : Option String
deriving DecidableEq

/-- Safe-info response of `getSafeInfo`, restricted to the field read here. -/
structure SafeInfo where
  implementation : SafeInfoImplementation
deriving DecidableEq

/-- A caught JavaScript error value: `hasLogMethod` records whether the value
carries a callable `log` method.  Standard `Error` values do not. -/
structure JsError where
  hasLogMethod : Bool
deriving DecidableEq

/-- Embedding of `getMasterCopyAddressFromProxyAddress` (safeContracts.ts,
lines 195-208).  A fulfilled `getSafeInfo` yields the implementation value or,
when that is falsy, a hardcoded default plus a console error.  A rejected
`getSafeInfo` reaches `e.log()`: when the caught value has no `log` method this
call itself throws a TypeError, which rejects the whole promise; otherwise the
function falls through and resolves with `undefined`. -/
def getMasterCopyAddressFromProxyAddress
    (getSafeInfo : String → Except JsError SafeInfo) (proxyAddress : String) :
    Except String (Option String) :=
  match getSafeInfo proxyAddress with
  | Except.ok res =>
    let masterCopyAddress := res.implementation.value
    if strFalsy masterCopyAddress then
      Except.ok (some "0x3736aC8400751bf07c6A2E4db3F4f3D9D422abB2")
    else Except.ok masterCopyAddress
  | Except.error e =>
    if e.hasLogMethod then Except.ok none
    else Except.error "TypeError: e.log is not a function"

/-- Claim C7: Whenever getSafeInfo rejects, getMasterCopyAddressFromProxyAddress
invokes a method named 'log' on the caught error object — a method that does not
exist on standard error values — so the catch branch itself fails rather than
swallowing the error and returning undefined. -/
theorem getMasterCopyAddressFromProxyAddress_catch_throws
    (getSafeInfo : String → Except JsError SafeInfo) (proxyAddress : String)
    (e : JsError) (hrej : getSafeInfo proxyAddress = Except.error e)
    (hstd : e.hasLogMethod = false) :
    getMasterCopyAddressFromProxyAddress getSafeInfo proxyAddress
      = Except.error "TypeError: e.log is not a function" ∧
    getMasterCopyAddressFromProxyAddress getSafeInfo proxyAddress
      ≠ Except.ok none := by
  unfold getMasterCopyAddressFromProxyAddress
  rw [hrej]
  simp [hstd]

/-- Witness for C7: a concrete `getSafeInfo` that always rejects with a
standard error makes the function reject with the TypeError. -/
theorem getMasterCopyAddressFromProxyAddress_catch_throws_witness :
    getMasterCopyAddressFromProxyAddress (fun _ => Except.error { hasLogMethod := false })
        "0xproxy" = Except.error "TypeError: e.log is not a function" ∧
    getMasterCopyAddressFromProxyAddress (fun _ => Except.error { hasLogMethod := false })
        "0xproxy" ≠ Except.ok none :=
  getMasterCopyAddressFromProxyAddress_catch_throws
    (fun _ => Except.error { hasLogMethod := false }) "0xproxy"
    { hasLogMethod := false } rfl rfl

/-- A persisted safe-balance entry; `tokenAddress` is `none` when the property
is absent and may be the empty string. -/
structure SafeBalance where
  tokenAddress : Option String
  tokenBalance : String
deriving DecidableEq

/-- A token record; `balance` is the balance entry merged in by the selector. -/
structure Token where
  address : String
  name : String
  balance : Option SafeBalance
deriving DecidableEq

/-- The persisted `safeBalances` value: an array, or any non-array value left
over from the pre-v3.5.0 immutable-Map storage format. -/
inductive BalancesValue where
  | arr (bs : List SafeBalance)
  | nonArray
deriving DecidableEq

/-- Inputs of the `extendedSafeTokensSelector` combiner other than the balance
list: the `sameAddress` comparison helper, the Immutable token map
(`tokensList.get`, exact-key lookup) and the native currency pseudo-token from
`safeEthAsTokenSelector` (absent when no safe is loaded). -/
structure SelectorEnv where
  sameAddress : String → Option String → Bool
  tokensList : String → Option Token
  ethAsToken : Option Token

/-- Result of the selector combiner together with the Sentry messages captured
while computing it. -/
structure SelectorResult where
  tokens : List Token
  sentryMessages : List String
deriving DecidableEq

/-- The `safeBalances.forEach` loop of `extendedSafeTokensSelector`: skip
entries with a falsy `tokenAddress`, look the base token up (native token on
`sameAddress` match, else the token map), skip on miss, else push the base
token with its `balance` field set to the balance entry. -/
def extendTokensLoop (env : SelectorEnv) : List SafeBalance → List Token
  | [] => []
  | safeBalance :: rest =>
    match safeBalance.tokenAddress with
    | none => extendTokensLoop env rest
    | some tokenAddress =>
      if tokenAddress.isEmpty then extendTokensLoop env rest
      else
        match (if env.sameAddress tokenAddress (env.ethAsToken.map Token.address)
              then env.ethAsToken else env.tokensList tokenAddress) with
        | none => extendTokensLoop env rest
        | some baseToken =>
          { baseToken with balance := some safeBalance } :: extendTokensLoop env rest

/-- Embedding of `extendedSafeTokensSelector`: a non-array persisted value is
reported to Sentry once and yields the empty list; an array is merged by the
forEach loop. -/
def extendedSafeTokensSelector (env : SelectorEnv) (safeBalances : BalancesValue) :
    SelectorResult :=
  match safeBalances with
  | BalancesValue.nonArray =>
    { tokens := []
    , sentryMessages :=
        ["There was an error loading `safeBalances` in `extendedSafeTokensSelector`, probably safe loaded prior to v3.5.0"] }
  | BalancesValue.arr bs => { tokens := extendTokensLoop env bs, sentryMessages := [] }

/-- The base token a single balance entry resolves to, read off the loop body:
`none` when the entry is skipped (falsy address or no matching token). -/
def balanceBaseToken (env : SelectorEnv) (safeBalance : SafeBalance) : Option Token :=
  match safeBalance.tokenAddress with
  | none => none
  | some tokenAddress =>
    if tokenAddress.isEmpty then none
    else if env.sameAddress tokenAddress (env.ethAsToken.map Token.address)
      then env.ethAsToken
    else env.tokensList tokenAddress

/-- Claim C3 as stated is refuted at a concrete input: a balance entry whose
`tokenAddress` is the empty string is skipped by the `if (!tokenAddress)`
truthiness guard even though the token map has an entry under that exact
address, so no record is produced for an entry whose address matches an entry
of the tokens map. -/
theorem extendedSafeTokensSelector_empty_address_counterexample :
    (extendedSafeTokensSelector
        { sameAddress := fun _ _ => false
        , tokensList := fun a =>
            if a = "" then some { address := "", name := "weird", balance := none }
            else none
        , ethAsToken := none }
        (BalancesValue.arr [{ tokenAddress := some "", tokenBalance := "5" }])).tokens
      = [] ∧
    (({ sameAddress := fun _ _ => false
      , tokensList := fun a =>
          if a = "" then some { address := "", name := "weird", balance := none }
          else none
      , ethAsToken := none } : SelectorEnv).tokensList "").isSome = true ∧
    ({ tokenAddress := some "", tokenBalance := "5" } : SafeBalance).tokenAddress
      = some "" := by
  refine ⟨rfl, rfl, rfl⟩

/-- Claim C3, amended: For every array of safe balances,
extendedSafeTokensSelector returns exactly one token record per balance entry
whose tokenAddress is present and non-empty and matches a known token (the
native-currency token or an entry of the tokens map), with that token's balance
field set to the balance entry, and silently skips every other balance entry —
in particular entries whose tokenAddress is absent or empty, even when the
tokens map holds an entry under the empty address.  No Sentry event is emitted
for an array input. -/
theorem extendedSafeTokensSelector_merges_matching_balances
    (env : SelectorEnv) (bs : List SafeBalance) :
    (extendedSafeTokensSelector env (BalancesValue.arr bs)).tokens
      = bs.filterMap (fun b => (balanceBaseToken env b).map
          (fun t => { t with balance := some b })) ∧
    (extendedSafeTokensSelector env (BalancesValue.arr bs)).tokens.length
      = (bs.filter (fun b => (balanceBaseToken env b).isSome)).length ∧
    (extendedSafeTokensSelector env (BalancesValue.arr bs)).sentryMessages = [] := by
  refine ⟨?_, ?_, rfl⟩
  · show extendTokensLoop env bs = _
    induction bs with
    | nil => rfl
    | cons b rest ih =>
      rw [extendTokensLoop, List.filterMap_cons, balanceBaseToken]
      cases hta : b.tokenAddress with
      | none => simpa using ih
      | some ta =>
        by_cases hempty : ta.isEmpty
        · simp only [hempty, if_true, Option.map_none]
          simpa using ih
        · rw [Bool.not_eq_true] at hempty
          simp only [hempty, Bool.false_eq_true, if_false]
          cases hbt : (if env.sameAddress ta (env.ethAsToken.map Token.address)
              then env.ethAsToken else env.tokensList ta) with
          | none => simpa using ih
          | some t => simp [ih]
  · show (extendTokensLoop env bs).length = _
    induction bs with
    | nil => rfl
    | cons b rest ih =>
      rw [extendTokensLoop, List.filter_cons, balanceBaseToken]
      cases hta : b.tokenAddress with
      | none => simpa using ih
      | some ta =>
        by_cases hempty : ta.isEmpty
        · simp only [hempty, if_true]
          simpa using ih
        · rw [Bool.not_eq_true] at hempty
          simp only [hempty, Bool.false_eq_true, if_false]
          cases hbt : (if env.sameAddress ta (env.ethAsToken.map Token.address)
              then env.ethAsToken else env.tokensList ta) with
          | none => simpa using ih
          | some t => simp [ih]

/-- Claim C4: Whenever the persisted safe balances value is not an array,
extendedSafeTokensSelector returns an empty list and emits exactly one
monitoring (Sentry) event, and no token record is produced. -/
theorem extendedSafeTokensSelector_non_array
    (env : SelectorEnv) :
    (extendedSafeTokensSelector env BalancesValue.nonArray).tokens = [] ∧
    (extendedSafeTokensSelector env BalancesValue.nonArray).sentryMessages.length = 1 :=
  ⟨rfl, rfl⟩

/-- A JavaScript primitive as accepted by the optional `label` argument of
`trackEvent` (`string | number | boolean`, or absent). -/
inductive JsPrimitive where
  | str (s : String)
  | num (n : Int)
  | bool (b : Bool)
  | undefined
deriving DecidableEq

/-- JavaScript truthiness on those primitives: the empty string, 0, false and
`undefined` are falsy. -/
def jsTruthy : JsPrimitive → Bool
  | JsPrimitive.str s => !s.isEmpty
  | JsPrimitive.num n => n != 0
  | JsPrimitive.bool b => b
  | JsPrimitive.undefined => false

/-- The `GTM_EVENT` enum of googleTagManager.ts. -/
inductive GTM_EVENT where
  | PAGEVIEW
  | CLICK
  | META
deriving DecidableEq

/-- The data-layer object emitted by `trackEvent`; `eventLabel` is `none` when
the property is absent from the object. -/
structure DataLayer where
  event : GTM_EVENT
  chainId : String
  eventCategory : String
  eventAction : String
  eventLabel : Option JsPrimitive
deriving DecidableEq

/-- Embedding of `trackEvent` (googleTagManager.ts, lines 123-151), with the
current chain id passed explicitly.  The spread `...(label && { eventLabel:
label })` adds the `eventLabel` property exactly when `label` is truthy:
spreading a falsy primitive adds no properties. -/
def trackEvent (chainId : String) (event : GTM_EVENT)
    (category action : String) (label : JsPrimitive) : DataLayer :=
  { event := event
  , chainId := chainId
  , eventCategory := category
  , eventAction := action
  , eventLabel := if jsTruthy label then some label else none }

/-- Claim C10: trackEvent omits the eventLabel field from the emitted data
layer whenever label is falsy — not only when it is absent, but also when it is
the number 0, false, or the empty string, even though the accepted label type
includes numbers and booleans; for every truthy label, eventLabel is included
with that value. -/
theorem trackEvent_label_truthiness
    (chainId : String) (event : GTM_EVENT) (category action : String) :
    (∀ label, jsTruthy label = false →
      (trackEvent chainId event category action label).eventLabel = none) ∧
    (trackEvent chainId event category action (JsPrimitive.num 0)).eventLabel = none ∧
    (trackEvent chainId event category action (JsPrimitive.bool false)).eventLabel = none ∧
    (trackEvent chainId event category action (JsPrimitive.str "")).eventLabel = none ∧
    (trackEvent chainId event category action JsPrimitive.undefined).eventLabel = none ∧
    (∀ label, jsTruthy label = true →
      (trackEvent chainId event category action label).eventLabel = some label) := by
  refine ⟨?_, rfl, rfl, rfl, rfl, ?_⟩ <;>
    intro label h <;> simp [trackEvent, h]

/-- Witness for C10: a truthy numeric label is included, a falsy one omitted. -/
theorem trackEvent_label_truthiness_witness :
    (trackEvent "4" GTM_EVENT.CLICK "cat" "act" (JsPrimitive.num 7)).eventLabel
      = some (JsPrimitive.num 7) ∧
    (trackEvent "4" GTM_EVENT.CLICK "cat" "act" (JsPrimitive.str "")).eventLabel
      = none :=
  ⟨(trackEvent_label_truthiness "4" GTM_EVENT.CLICK "cat" "act").2.2.2.2.2
      (JsPrimitive.num 7) (by decide),
   (trackEvent_label_truthiness "4" GTM_EVENT.CLICK "cat" "act").1
      (JsPrimitive.str "") (by decide)⟩

/-- JavaScript `String.prototype.replace` with a string pattern: replaces the
first occurrence of `pat` by `repl`, leaves the string unchanged when `pat` does
not occur, and inserts `repl` in front when `pat` is empty.  Strings are
modelled as lists of characters. -/
def listReplaceFirst (pat repl : List Char) : List Char → List Char
  | [] => if pat.isPrefixOf ([] : List Char) then repl else []
  | c :: rest =>
    if pat.isPrefixOf (c :: rest) then repl ++ (c :: rest).drop pat.length
    else c :: listReplaceFirst pat repl rest

/-- A character other than the path separator. -/
def notSlash (ch : Char) : Bool := ch != '/'

/-- One step of path-pattern matching, as `path-to-regexp` does it for a
`/:param` piece without `exact`: the input must start with '/' followed by a
non-empty run of non-slash characters; that run is the parameter value and the
remainder (empty or starting with '/') is left for the rest of the pattern. -/
def matchSegment (l : List Char) : Option (List Char × List Char) :=
  match l with
  | [] => none
  | c :: rest =>
    if c = '/' then
      let seg := rest.takeWhile notSlash
      if seg.isEmpty then none else some (seg, rest.drop seg.length)
    else none

/-- Modelled from the spec: the `ADDRESSED_ROUTE` pattern of src/routes/routes
(not part of the shown sources) consists of a single safe-address path
parameter, and react-router's `matchPath` without `exact` matches it as a
prefix: the pathname starts with '/' followed by a non-empty first segment,
which is the extracted safe-address parameter. -/
def matchAddressedRoute (pathname : List Char) : Option (List Char) :=
  (matchSegment pathname).map Prod.fst

/-- Modelled from the spec: the `SAFE_ROUTES.TRANSACTIONS_SINGULAR` pattern of
src/routes/routes (not part of the shown sources) is the addressed route
followed by a literal `transactions` segment and a transaction-id path
parameter; `matchPath` without `exact` matches it as a prefix and extracts the
third segment as the transaction id. -/
def matchTransactionsSingular (pathname : List Char) : Option (List Char) :=
  match matchSegment pathname with
  | none => none
  | some (_, rest1) =>
    match matchSegment rest1 with
    | none => none
    | some (seg2, rest2) =>
      if seg2 = "transactions".data then
        match matchSegment rest2 with
        | none => none
        | some (seg3, _) => some seg3
      else none

/-- A history `Location`: pathname, query string and fragment. -/
structure JsLocation where
  pathname : List Char
  search : List Char
  hash : List Char
deriving DecidableEq

/-- Embedding of `getAnonymizedLocation` (googleTagManager.ts, lines 19-38):
both route matches run against the original pathname; each match replaces the
first occurrence of its parameter value in the accumulated anonymized pathname;
search and hash are appended unchanged. -/
def getAnonymizedLocation (loc : JsLocation) : List Char :=
  let anonPathname := loc.pathname
  let anonPathname :=
    match matchAddressedRoute loc.pathname with
    | some safeAddress => listReplaceFirst safeAddress "SAFE_ADDRESS".data anonPathname
    | none => anonPathname
  let anonPathname :=
    match matchTransactionsSingular loc.pathname with
    | some txId => listReplaceFirst txId "TRANSACTION_ID".data anonPathname
    | none => anonPathname
  anonPathname ++ loc.search ++ loc.hash

/-- Claim C8 as stated is refuted on a concrete pair of locations that are
identical except for the transaction-id segment: for the id 'a', the
first-occurrence replacement hits the letter 'a' inside the literal
'transactions' segment, so the two outputs differ and the first one still
contains the raw transaction id. -/
theorem getAnonymizedLocation_counterexample :
    getAnonymizedLocation
        { pathname := "/0xsafe/transactions/a".data, search := "?q=1".data, hash := "#h".data }
      ≠ getAnonymizedLocation
        { pathname := "/0xsafe/transactions/b".data, search := "?q=1".data, hash := "#h".data } ∧
    getAnonymizedLocation
        { pathname := "/0xsafe/transactions/a".data, search := "?q=1".data, hash := "#h".data }
      = "/SAFE_ADDRESS/trTRANSACTION_IDnsactions/a?q=1#h".data := by
  constructor
  · decide
  · decide

/-- Appending past elements that all satisfy the predicate. -/
theorem takeWhile_append_all (p : Char → Bool) (xs ys : List Char)
    (h : ∀ x ∈ xs, p x = true) :
    (xs ++ ys).takeWhile p = xs ++ ys.takeWhile p := by
  induction xs with
  | nil => simp
  | cons a as ih =>
    have ha : p a = true := h a (List.mem_cons_self a as)
    simp only [List.cons_append, List.takeWhile_cons, ha, if_true]
    rw [ih (fun x hx => h x (List.mem_cons_of_mem a hx))]

/-- A segment with no slash, followed by nothing or by a slash, is exactly what
`takeWhile notSlash` extracts. -/
theorem takeWhile_segment (addr tail : List Char) (hslash : '/' ∉ addr)
    (htail : tail = [] ∨ ∃ r, tail = '/' :: r) :
    (addr ++ tail).takeWhile notSlash = addr := by
  have hall : ∀ x ∈ addr, notSlash x = true := by
    intro x hx
    have hxne : x ≠ '/' := fun hxe => hslash (hxe ▸ hx)
    simpa [notSlash] using hxne
  rw [takeWhile_append_all _ _ _ hall]
  rcases htail with h | ⟨r, h⟩ <;> subst h
  · simp
  · simp [List.takeWhile_cons, notSlash]

/-- A list is a prefix of itself followed by anything, as a Boolean. -/
theorem isPrefixOf_append_self (l₁ l₂ : List Char) :
    l₁.isPrefixOf (l₁ ++ l₂) = true := by
  induction l₁ with
  | nil => cases l₂ <;> rfl
  | cons a as ih => simp [List.isPrefixOf, ih]

/-- A non-empty pattern without slashes is not a prefix of a string starting
with a slash. -/
theorem isPrefixOf_slash_cons (addr s : List Char)
    (hne : addr ≠ []) (hslash : '/' ∉ addr) :
    addr.isPrefixOf ('/' :: s) = false := by
  cases addr with
  | nil => exact absurd rfl hne
  | cons a as =>
    have ha : a ≠ '/' := fun hae => hslash (hae ▸ List.mem_cons_self a as)
    simp [List.isPrefixOf, ha]

/-- Replacement at a guaranteed match. -/
theorem listReplaceFirst_of_isPrefixOf (pat repl s : List Char)
    (h : pat.isPrefixOf s = true) :
    listReplaceFirst pat repl s = repl ++ s.drop pat.length := by
  cases s with
  | nil =>
    cases pat with
    | nil => simp [listReplaceFirst]
    | cons a as => simp [List.isPrefixOf] at h
  | cons c rest => simp [listReplaceFirst, h]

/-- Replacement of the first occurrence: when the pattern occurs nowhere
strictly inside the prefix `pre`, the occurrence after `pre` is the one
replaced. -/
theorem listReplaceFirst_at_occurrence (pat repl pre post : List Char)
    (h : ∀ i, i < pre.length → pat.isPrefixOf ((pre ++ pat ++ post).drop i) = false) :
    listReplaceFirst pat repl (pre ++ pat ++ post) = pre ++ repl ++ post := by
  induction pre with
  | nil =>
    simp only [List.nil_append]
    rw [listReplaceFirst_of_isPrefixOf pat repl (pat ++ post)
      (isPrefixOf_append_self pat post)]
    rw [List.drop_left]
  | cons c cs ih =>
    have h0 := h 0 (by simp)
    rw [List.drop_zero] at h0
    show listReplaceFirst pat repl (c :: (cs ++ pat ++ post)) = c :: (cs ++ repl ++ post)
    rw [listReplaceFirst]
    rw [show ((c :: (cs ++ pat ++ post)) = ((c :: cs) ++ pat ++ post)) from rfl, h0]
    simp only [Bool.false_eq_true, if_false]
    rw [ih (fun i hi => by
      have := h (i + 1) (by simpa using Nat.succ_lt_succ hi)
      simpa using this)]


/-- Segment matching on a structured input: a slash, a non-empty slash-free
segment, then a remainder that is empty or starts with a slash. -/
theorem matchSegment_structured (seg tail : List Char)
    (hne : seg ≠ []) (hslash : '/' ∉ seg)
    (htail : tail = [] ∨ ∃ r, tail = '/' :: r) :
    matchSegment ('/' :: seg ++ tail) = some (seg, tail) := by
  have hseg := takeWhile_segment seg tail hslash htail
  have hemp : seg.isEmpty = false := by
    cases seg with
    | nil => exact absurd rfl hne
    | cons a as => rfl
  show (if ((seg ++ tail).takeWhile notSlash).isEmpty = true then none
      else some ((seg ++ tail).takeWhile notSlash,
        (seg ++ tail).drop ((seg ++ tail).takeWhile notSlash).length))
    = some (seg, tail)
  rw [hseg, hemp]
  simp only [Bool.false_eq_true, if_false]
  rw [List.drop_left]

/-- Route matching on a structured pathname: the first segment is extracted as
the safe address. -/
theorem matchAddressedRoute_structured (addr tail : List Char)
    (hne : addr ≠ []) (hslash : '/' ∉ addr)
    (htail : tail = [] ∨ ∃ r, tail = '/' :: r) :
    matchAddressedRoute ('/' :: addr ++ tail) = some addr := by
  unfold matchAddressedRoute
  rw [matchSegment_structured addr tail hne hslash htail]
  rfl

/-- Route matching on a structured transactions pathname: the third segment is
extracted as the transaction id. -/
theorem matchTransactionsSingular_structured (addr txId rest : List Char)
    (hane : addr ≠ []) (haslash : '/' ∉ addr)
    (htne : txId ≠ []) (htslash : '/' ∉ txId)
    (hrest : rest = [] ∨ ∃ r, rest = '/' :: r) :
    matchTransactionsSingular ('/' :: addr ++ ("/transactions/".data ++ (txId ++ rest)))
      = some txId := by
  unfold matchTransactionsSingular
  rw [matchSegment_structured addr ("/transactions/".data ++ (txId ++ rest))
    hane haslash (Or.inr ⟨"transactions/".data ++ (txId ++ rest), rfl⟩)]
  simp only []
  rw [show ("/transactions/".data ++ (txId ++ rest) : List Char)
      = '/' :: "transactions".data ++ ('/' :: (txId ++ rest)) from rfl]
  rw [matchSegment_structured "transactions".data ('/' :: (txId ++ rest))
    (by decide) (by decide) (Or.inr ⟨txId ++ rest, rfl⟩)]
  simp only [if_pos rfl]
  rw [show ('/' :: (txId ++ rest) : List Char) = '/' :: txId ++ rest from rfl]
  rw [matchSegment_structured txId rest htne htslash hrest]
  simp

/-- Claim C8, amended: For any two locations that are identical except for the
safe-address segment (or except for the transaction-id segment) of a pathname
matching the addressed route, getAnonymizedLocation returns the same string —
with the safe address replaced by 'SAFE_ADDRESS', the transaction id replaced
by 'TRANSACTION_ID', and search and hash appended unchanged — provided the
transaction-id value does not also occur earlier in the address-anonymized
pathname: the replacement substitutes the first occurrence of the parameter
value, so an id that occurs inside '/SAFE_ADDRESS/transactions/' is replaced at
that earlier position instead (the refuting case).  Stated as: under that
proviso the output is determined with both parameter values anonymized, hence
independent of the concrete safe address and transaction id. -/
theorem getAnonymizedLocation_anonymizes :
    (∀ safeAddress tail search hash, safeAddress ≠ [] → '/' ∉ safeAddress →
      (tail = [] ∨ ∃ r, tail = '/' :: r) →
      matchTransactionsSingular ('/' :: safeAddress ++ tail) = none →
      getAnonymizedLocation
          { pathname := '/' :: safeAddress ++ tail, search := search, hash := hash }
        = "/SAFE_ADDRESS".data ++ tail ++ search ++ hash) ∧
    (∀ safeAddress txId rest search hash, safeAddress ≠ [] → '/' ∉ safeAddress →
      txId ≠ [] → '/' ∉ txId →
      (rest = [] ∨ ∃ r, rest = '/' :: r) →
      (∀ i, i < ("/SAFE_ADDRESS/transactions/".data).length →
        txId.isPrefixOf (("/SAFE_ADDRESS/transactions/".data ++ txId ++ rest).drop i)
          = false) →
      getAnonymizedLocation
          { pathname := '/' :: safeAddress ++ ("/transactions/".data ++ (txId ++ rest))
          , search := search, hash := hash }
        = "/SAFE_ADDRESS/transactions/TRANSACTION_ID".data ++ rest ++ search ++ hash) := by
  constructor
  · intro safeAddress tail search hash hne hslash htail hnotx
    have hocc : ∀ i, i < (['/'] : List Char).length →
        safeAddress.isPrefixOf ((['/'] ++ safeAddress ++ tail).drop i) = false := by
      intro i hi
      have hz : i = 0 := by simpa using hi
      subst hz
      exact isPrefixOf_slash_cons safeAddress (safeAddress ++ tail) hne hslash
    have hrep := listReplaceFirst_at_occurrence safeAddress "SAFE_ADDRESS".data
      ['/'] tail hocc
    show (match matchTransactionsSingular ('/' :: safeAddress ++ tail) with
        | some txId => listReplaceFirst txId "TRANSACTION_ID".data
            (match matchAddressedRoute ('/' :: safeAddress ++ tail) with
             | some sa => listReplaceFirst sa "SAFE_ADDRESS".data ('/' :: safeAddress ++ tail)
             | none => '/' :: safeAddress ++ tail)
        | none =>
            (match matchAddressedRoute ('/' :: safeAddress ++ tail) with
             | some sa => listReplaceFirst sa "SAFE_ADDRESS".data ('/' :: safeAddress ++ tail)
             | none => '/' :: safeAddress ++ tail)) ++ search ++ hash
      = "/SAFE_ADDRESS".data ++ tail ++ search ++ hash
    rw [hnotx, matchAddressedRoute_structured safeAddress tail hne hslash htail]
    show listReplaceFirst safeAddress "SAFE_ADDRESS".data ('/' :: safeAddress ++ tail)
        ++ search ++ hash
      = "/SAFE_ADDRESS".data ++ tail ++ search ++ hash
    rw [show ('/' :: safeAddress ++ tail : List Char) = ['/'] ++ safeAddress ++ tail from rfl]
    rw [hrep]
    rw [show ((['/'] : List Char) ++ "SAFE_ADDRESS".data) = "/SAFE_ADDRESS".data from rfl]
  · intro safeAddress txId rest search hash hane haslash htne htslash hrest hocc
    have h1 := matchAddressedRoute_structured safeAddress
      ("/transactions/".data ++ (txId ++ rest)) hane haslash
      (Or.inr ⟨"transactions/".data ++ (txId ++ rest), rfl⟩)
    have h2 := matchTransactionsSingular_structured safeAddress txId rest
      hane haslash htne htslash hrest
    have hocc1 : ∀ i, i < (['/'] : List Char).length →
        safeAddress.isPrefixOf
          ((['/'] ++ safeAddress ++ ("/transactions/".data ++ (txId ++ rest))).drop i)
          = false := by
      intro i hi
      have hz : i = 0 := by simpa using hi
      subst hz
      exact isPrefixOf_slash_cons safeAddress
        (safeAddress ++ ("/transactions/".data ++ (txId ++ rest))) hane haslash
    have hrep1 := listReplaceFirst_at_occurrence safeAddress "SAFE_ADDRESS".data
      ['/'] ("/transactions/".data ++ (txId ++ rest)) hocc1
    have hrep2 := listReplaceFirst_at_occurrence txId "TRANSACTION_ID".data
      "/SAFE_ADDRESS/transactions/".data rest hocc
    show (match matchTransactionsSingular
            ('/' :: safeAddress ++ ("/transactions/".data ++ (txId ++ rest))) with
        | some tx => listReplaceFirst tx "TRANSACTION_ID".data
            (match matchAddressedRoute
                ('/' :: safeAddress ++ ("/transactions/".data ++ (txId ++ rest))) with
             | some sa => listReplaceFirst sa "SAFE_ADDRESS".data
                 ('/' :: safeAddress ++ ("/transactions/".data ++ (txId ++ rest)))
             | none => '/' :: safeAddress ++ ("/transactions/".data ++ (txId ++ rest)))
        | none =>
            (match matchAddressedRoute
                ('/' :: safeAddress ++ ("/transactions/".data ++ (txId ++ rest))) with
             | some sa => listReplaceFirst sa "SAFE_ADDRESS".data
                 ('/' :: safeAddress ++ ("/transactions/".data ++ (txId ++ rest)))
             | none => '/' :: safeAddress ++ ("/transactions/".data ++ (txId ++ rest))))
        ++ search ++ hash
      = "/SAFE_ADDRESS/transactions/TRANSACTION_ID".data ++ rest ++ search ++ hash
    rw [h1, h2]
    show listReplaceFirst txId "TRANSACTION_ID".data
        (listReplaceFirst safeAddress "SAFE_ADDRESS".data
          ('/' :: safeAddress ++ ("/transactions/".data ++ (txId ++ rest))))
        ++ search ++ hash
      = "/SAFE_ADDRESS/transactions/TRANSACTION_ID".data ++ rest ++ search ++ hash
    rw [show ('/' :: safeAddress ++ ("/transactions/".data ++ (txId ++ rest)) : List Char)
        = ['/'] ++ safeAddress ++ ("/transactions/".data ++ (txId ++ rest)) from rfl]
    rw [hrep1]
    rw [show ((['/'] ++ "SAFE_ADDRESS".data : List Char)
          ++ ("/transactions/".data ++ (txId ++ rest)))
        = "/SAFE_ADDRESS/transactions/".data ++ txId ++ rest from rfl]
    rw [hrep2]
    rw [show ("/SAFE_ADDRESS/transactions/".data ++ "TRANSACTION_ID".data : List Char)
        = "/SAFE_ADDRESS/transactions/TRANSACTION_ID".data from rfl]

/-- Witness for the amended C8 theorem: both conjuncts applied at concrete
locations. -/
theorem getAnonymizedLocation_anonymizes_witness :
    getAnonymizedLocation
        { pathname := '/' :: "0xsafe".data ++ "/balances".data
        , search := "?q=1".data, hash := "#h".data }
      = "/SAFE_ADDRESS".data ++ "/balances".data ++ "?q=1".data ++ "#h".data ∧
    getAnonymizedLocation
        { pathname := '/' :: "0xsafe".data ++ ("/transactions/".data ++ ("0xdead".data ++ []))
        , search := [], hash := [] }
      = "/SAFE_ADDRESS/transactions/TRANSACTION_ID".data ++ [] ++ [] ++ [] :=
  ⟨getAnonymizedLocation_anonymizes.1 "0xsafe".data "/balances".data
      "?q=1".data "#h".data (by decide) (by decide)
      (Or.inr ⟨"balances".data, by decide⟩) (by decide),
   getAnonymizedLocation_anonymizes.2 "0xsafe".data "0xdead".data []
      [] [] (by decide) (by decide) (by decide) (by decide)
      (Or.inl rfl) (by decide)⟩

end SafeReact
